import Mathlib

/-!
Verification development for the "Periscopio Compras Públicas" dashboard
script (`app.js`).  Strings are modelled as `List Char`; JavaScript
`null`/`undefined` field values are modelled with `Option`; host functions
(`Intl` formatting, `Date` parsing, `localeCompare`) are modelled as
oracle parameters, since their output is environment defined while the
script's control flow around them is not.
-/

set_option autoImplicit false

namespace Periscopio

/-! ### String helpers (models of the JS string primitives used) -/

/-- Model of `String.prototype.toLowerCase` (ASCII case folding). -/
def toLowerL (l : List Char) : List Char := l.map Char.toLower

/-- Model of the JS whitespace class used by `String.prototype.trim`. -/
def isWS (c : Char) : Bool :=
  c = ' ' || c = Char.ofNat 9 || c = Char.ofNat 10 || c = Char.ofNat 13 ||
  c = Char.ofNat 11 || c = Char.ofNat 12 || c = Char.ofNat 160 || c = Char.ofNat 65279

/-- Model of `String.prototype.trim`: drop whitespace from both ends. -/
def trimL (l : List Char) : List Char :=
  ((l.dropWhile isWS).reverse.dropWhile isWS).reverse

/-- Model of `String.prototype.startsWith` (first argument is the string,
second the pattern). -/
def strStartsWith : List Char → List Char → Bool
  | _, [] => true
  | [], _ :: _ => false
  | c :: s, p :: ps => if c = p then strStartsWith s ps else false

/-- Model of `String.prototype.includes`: some suffix of `s` starts with
`pat`. -/
def strIncludes (s pat : List Char) : Bool :=
  match s with
  | [] => pat.isEmpty
  | _ :: rest => strStartsWith s pat || strIncludes rest pat

/-! ### Data model (§3 of the spec, fields as read by `app.js`) -/

/-- One opportunity row.  String fields that the code only ever reads
through `|| ""` / `?? ""` are plain `List Char` (absent = `[]`); the
remaining fields keep an explicit `Option` for absent/null. -/
structure Opp where
  id : List Char
  title : List Char
  buyer : List Char
  score : Option Int
  amount_clp : Option Int
  reviewed : Option Bool
  source : Option (List Char)
  published_at : Option (List Char)
  questions_end_at : Option (List Char)
  close_at : Option (List Char)
  url : Option (List Char)
deriving DecidableEq

/-- An opportunity with every field absent, used to build concrete rows. -/
def o0 : Opp := ⟨[], [], [], none, none, none, none, none, none, none, none⟩

/-! ### Formatters (`fmtCLP`, `fmtDT`) -/

/-- The placeholder dash rendered for absent values. -/
def dashL : List Char := "—".toList

/-- Possible inputs to `fmtCLP` as distinguished by the code: `null`,
`undefined`, the NaN number, or a finite number. -/
inductive CLPInput
  | null
  | undef
  | nan
  | num (n : Int)
deriving DecidableEq

/-- Options object passed to `Intl.NumberFormat` by `fmtCLP`. -/
structure NumFmtOpts where
  locale : List Char
  style : List Char
  currency : List Char
  maximumFractionDigits : Nat
deriving DecidableEq

/-- The concrete options `fmtCLP` builds (lines 6-10 of `app.js`). -/
def clpOpts : NumFmtOpts := ⟨"es-CL".toList, "currency".toList, "CLP".toList, 0⟩

/-- Function `fmtCLP` (lines 3-14): dash for null/undefined/NaN, otherwise
locale-formatted currency, falling back to `String(x)` when the host
formatter throws.  `intlFmt` is the oracle for
`Intl.NumberFormat(...).format`; `none` models a throw. -/
def fmtCLP (intlFmt : NumFmtOpts → Int → Option (List Char)) : CLPInput → List Char
  | .null => dashL
  | .undef => dashL
  | .nan => dashL
  | .num n =>
    match intlFmt clpOpts n with
    | some s => s
    | none => (toString n).toList

/-- Options object passed to `Intl.DateTimeFormat` by `fmtDT`. -/
structure DTFmtOpts where
  locale : List Char
  timeZone : List Char
  year : List Char
  month : List Char
  day : List Char
  hour : List Char
  minute : List Char
deriving DecidableEq

/-- The concrete options `fmtDT` builds (lines 20-27 of `app.js`). -/
def dtOpts : DTFmtOpts :=
  ⟨"es-CL".toList, "America/Santiago".toList, "numeric".toList,
   "2-digit".toList, "2-digit".toList, "2-digit".toList, "2-digit".toList⟩

/-- Function `fmtDT` (lines 16-28): dash for absent or empty input, the original
string back when `new Date(iso)` is invalid, otherwise the host-formatted
timestamp.  `parseDate` is the oracle for `new Date(iso).getTime()`
(`none` models NaN, i.e. an invalid date); `intlDT` the oracle for
`Intl.DateTimeFormat(...).format`. -/
def fmtDT (parseDate : List Char → Option Int)
    (intlDT : DTFmtOpts → Int → List Char) : Option (List Char) → List Char
  | none => dashL
  | some s =>
    if s = [] then dashL
    else
      match parseDate s with
      | none => s
      | some t => intlDT dtOpts t

/-! ### HTML escaper (`esc`, lines 30-38) -/

/-- The double-quote character. -/
def qtC : Char := Char.ofNat 34

/-- The apostrophe character. -/
def apC : Char := Char.ofNat 39

/-- Entity replacement texts used by `esc`. -/
def entAmp : List Char := "&amp;".toList

/-- Entity for the less-than sign. -/
def entLt : List Char := "&lt;".toList

/-- Entity for the greater-than sign. -/
def entGt : List Char := "&gt;".toList

/-- Entity for the double quote. -/
def entQt : List Char := "&quot;".toList

/-- Entity for the apostrophe. -/
def entAp : List Char := "&#039;".toList

/-- The five entity strings `esc` can emit. -/
def entities : List (List Char) := [entAmp, entLt, entGt, entQt, entAp]

/-- Model of `String.prototype.replaceAll` with a single-character
pattern. -/
def replAll (p : Char) (r : List Char) : List Char → List Char
  | [] => []
  | c :: t => (if c = p then r else [c]) ++ replAll p r t

/-- Function `esc` (lines 30-38): `(s ?? "").toString()` then the five chained
`replaceAll` calls, in source order. -/
def esc (s : Option (List Char)) : List Char :=
  replAll apC entAp (replAll qtC entQt (replAll '>' entGt
    (replAll '<' entLt (replAll '&' entAmp (s.getD [])))))

/-- Per-character view of the whole `replaceAll` chain: each of the five
special characters maps to its entity, everything else to itself. -/
def escChar (c : Char) : List Char :=
  if c = '&' then entAmp
  else if c = '<' then entLt
  else if c = '>' then entGt
  else if c = qtC then entQt
  else if c = apC then entAp
  else [c]

/-- `escChar` mapped over a whole string. -/
def escAll : List Char → List Char
  | [] => []
  | c :: t => escChar c ++ escAll t

/-- Checks that every occurrence of `&` (scanning all suffixes) begins one
of the five entities. -/
def ampOkB : List Char → Bool
  | [] => true
  | c :: t =>
    (if c = '&' then entities.any (fun e => strStartsWith (c :: t) e) else true)
      && ampOkB t

/-! ### Search filter (`applySearch`, lines 199-215) -/

/-- The template literal built by the filter predicate
(line 205): id, space, title, space, buyer. -/
def searchBlob (o : Opp) : List Char :=
  o.id ++ (" ".toList) ++ o.title ++ (" ".toList) ++ o.buyer

/-- The filtering step of `applySearch` (lines 200-208): normalize the raw
search-box value with trim + toLowerCase, return the whole dataset for an
empty query, otherwise keep rows whose lower-cased blob contains the
query. -/
def searchFilter (raw : Option (List Char)) (data : List Opp) : List Opp :=
  let q := toLowerL (trimL (raw.getD []))
  if q = [] then data
  else data.filter (fun o => strIncludes (toLowerL (searchBlob o)) q)

/-! ### Sort engine (`compareBy` / `applySort`, lines 217-274) -/

/-- Function `toNum` (lines 73-76): finite number or 0. -/
def toNum (x : Option Int) : Int := x.getD 0

/-- Function `toStr` (lines 78-80): `(x ?? "").toString().toLowerCase()`. -/
def toStr (x : List Char) : List Char := toLowerL x

/-- Function `toBoolNum` (lines 82-84): truthiness as 0/1. -/
def toBoolNum (x : Option Bool) : Int := if x = some true then 1 else 0

/-- Function `toDateNum` (lines 86-91): 0 for absent/empty, the parsed epoch value
when finite, 0 otherwise.  `pd` is the `new Date(...).getTime()`
oracle (`none` = NaN). -/
def toDateNum (pd : List Char → Option Int) : Option (List Char) → Int
  | none => 0
  | some s => if s = [] then 0 else (pd s).getD 0

/-- Function `getSourceLabel` (lines 93-95). -/
def getSourceLabel (src : Option (List Char)) : List Char :=
  if src = some ("compra_agil".toList) then "Compra Ágil".toList
  else "Licitación".toList

/-- The nine sortable column keys. -/
inductive SortKey
  | score
  | reviewed
  | source
  | title
  | buyer
  | amount_clp
  | published_at
  | questions_end_at
  | close_at
deriving DecidableEq

/-- Sort direction. -/
inductive Dir
  | asc
  | desc
deriving DecidableEq

/-- The `SORT` state object `{ key, dir }`. -/
structure SortSt where
  key : SortKey
  dir : Dir
deriving DecidableEq

/-- Function `compareBy` (lines 217-250).  `lc` is the oracle for
`String.prototype.localeCompare(_, "es")`. -/
def compareBy (lc : List Char → List Char → Int) (pd : List Char → Option Int)
    (key : SortKey) (a b : Opp) : Int :=
  match key with
  | .score => toNum a.score - toNum b.score
  | .reviewed => toBoolNum a.reviewed - toBoolNum b.reviewed
  | .source => lc (toStr (getSourceLabel a.source)) (toStr (getSourceLabel b.source))
  | .title => lc (toStr a.title) (toStr b.title)
  | .buyer => lc (toStr a.buyer) (toStr b.buyer)
  | .amount_clp => toNum a.amount_clp - toNum b.amount_clp
  | .published_at => toDateNum pd a.published_at - toDateNum pd b.published_at
  | .questions_end_at => toDateNum pd a.questions_end_at - toDateNum pd b.questions_end_at
  | .close_at => toDateNum pd a.close_at - toDateNum pd b.close_at

/-- The direction multiplier (line 254). -/
def dirMult : Dir → Int
  | .asc => 1
  | .desc => -1

/-- The tie-break chain of the comparator (lines 261-267): score
descending, then published date descending, then id ascending by locale
comparison. -/
def tieCmp (lc : List Char → List Char → Int) (pd : List Char → Option Int)
    (a b : Opp) : Int :=
  let d2 := toNum a.score - toNum b.score
  if d2 ≠ 0 then -d2
  else
    let d3 := toDateNum pd a.published_at - toDateNum pd b.published_at
    if d3 ≠ 0 then -d3
    else lc (toStr a.id) (toStr b.id)

/-- The full comparator passed to `VIEW.sort` (lines 256-268): direction
multiplier on the primary comparison, tie-break chain when it is zero. -/
def sortCmp (lc : List Char → List Char → Int) (pd : List Char → Option Int)
    (key : SortKey) (dir : Dir) (a b : Opp) : Int :=
  let d := compareBy lc pd key a b
  if d ≠ 0 then dirMult dir * d else tieCmp lc pd a b

/-- Insertion step of the sort model. -/
def insertCmp (cmp : Opp → Opp → Int) (a : Opp) : List Opp → List Opp
  | [] => [a]
  | b :: t => if cmp a b ≤ 0 then a :: b :: t else b :: insertCmp cmp a t

/-- Model of `Array.prototype.sort` with a comparator: a stable
comparison sort (insertion sort). -/
def sortJS (cmp : Opp → Opp → Int) (l : List Opp) : List Opp :=
  l.foldr (insertCmp cmp) []

/-! ### Aggregate counter (`computeCounts`, lines 143-175) -/

/-- The optional precomputed totals read from `META.counts`. -/
structure MetaCounts where
  licitaciones_total : Option Int
  compra_agil_total : Option Int
  total_current : Option Int
deriving DecidableEq

/-- A per-category pair (licitaciones / compra ágil). -/
structure LicCa where
  lic : Int
  ca : Int
deriving DecidableEq

/-- The object returned by `computeCounts` (lines 167-174). -/
structure CountsOut where
  totals : LicCa
  shown : LicCa
  reviewed : LicCa
  reviewed_total : Int
  shown_total : Int
  total_current : Int
deriving DecidableEq

/-- Whether a row belongs to the "compra ágil" category. -/
def isCA (o : Opp) : Bool := o.source = some ("compra_agil".toList)

/-- Function `computeCounts` (lines 143-175). -/
def computeCounts (allRows viewRows : Option (List Opp))
    (metaCounts : Option MetaCounts) : CountsOut :=
  let all := allRows.getD []
  let view := viewRows.getD []
  let allLic := all.filter (fun o => !(isCA o))
  let allCA := all.filter (fun o => isCA o)
  let viewLic := view.filter (fun o => !(isCA o))
  let viewCA := view.filter (fun o => isCA o)
  let reviewedLicAll : Int := (allLic.filter (fun o => o.reviewed = some true)).length
  let reviewedCAAll : Int := (allCA.filter (fun o => o.reviewed = some true)).length
  let licTotal : Int :=
    (Option.bind metaCounts MetaCounts.licitaciones_total).getD (allLic.length : Int)
  let caTotal : Int :=
    (Option.bind metaCounts MetaCounts.compra_agil_total).getD (allCA.length : Int)
  let shownLic : Int := viewLic.length
  let shownCA : Int := viewCA.length
  ⟨⟨licTotal, caTotal⟩, ⟨shownLic, shownCA⟩, ⟨reviewedLicAll, reviewedCAAll⟩,
    reviewedLicAll + reviewedCAAll, shownLic + shownCA,
    (Option.bind metaCounts MetaCounts.total_current).getD (licTotal + caTotal)⟩

/-! ### Header-click sorting (`setupSorting`, lines 276-305) -/

/-- The positional header-to-key mapping (lines 278-289); the last column
("Acción") has no key. -/
def headerKeys : List (Option SortKey) :=
  [some .score, some .reviewed, some .source, some .title, some .buyer,
   some .amount_clp, some .published_at, some .questions_end_at,
   some .close_at, none]

/-- Effect of a click on header cell `idx` on the `SORT` state
(lines 292-304): columns without a key attach no listener, otherwise the
direction toggles on the same key and resets to descending on a new
key. -/
def clickHeader (st : SortSt) (idx : Nat) : SortSt :=
  match headerKeys.getD idx none with
  | none => st
  | some key =>
    if st.key = key ∧ st.dir = Dir.desc then ⟨key, Dir.asc⟩ else ⟨key, Dir.desc⟩

/-! ### UI state and the state-level operations (for the frame claim) -/

/-- The module-level mutable state `DATA` / `VIEW` / `SORT`. -/
structure UIState where
  data : List Opp
  view : List Opp
  sort : SortSt
deriving DecidableEq

/-- Function `applySort` (lines 252-274) as a state transformer: stores the new
sort request and sorts the view in place; `DATA` is untouched. -/
def applySort (lc : List Char → List Char → Int) (pd : List Char → Option Int)
    (key : SortKey) (dir : Dir) (st : UIState) : UIState :=
  ⟨st.data, sortJS (sortCmp lc pd key dir) st.view, ⟨key, dir⟩⟩

/-- Function `applySearch` (lines 199-215) as a state transformer: refilter `VIEW`
from `DATA`, then re-apply the current sort to the view. -/
def applySearch (lc : List Char → List Char → Int) (pd : List Char → Option Int)
    (raw : Option (List Char)) (st : UIState) : UIState :=
  applySort lc pd st.sort.key st.sort.dir ⟨st.data, searchFilter raw st.data, st.sort⟩

/-! ### Concrete values used by witnesses -/

/-- A locale comparator usable in witnesses: equal strings compare equal. -/
def lcW (x y : List Char) : Int := if x = y then 0 else 1

/-- A date-parse oracle usable in witnesses. -/
def pdW (s : List Char) : Option Int := some (s.length : Int)

/-- Concrete row: id "b", title "x", score 5. -/
def oW1 : Opp := ⟨"b".toList, "x".toList, [], some 5, none, none, none, none, none, none, none⟩

/-- Concrete row: id "c", title "x", score 2. -/
def oW2 : Opp := ⟨"c".toList, "x".toList, [], some 2, none, none, none, none, none, none, none⟩

/-- Concrete row: id "ab", title "cd", empty buyer. -/
def oAB : Opp := ⟨"ab".toList, "cd".toList, [], none, none, none, none, none, none, none, none⟩

/-! ### Helper lemmas -/

/-- A case-folded string is empty exactly when the original is. -/
theorem toLowerL_eq_nil {l : List Char} (h : toLowerL l = []) : l = [] :=
  List.map_eq_nil_iff.mp h

/-- Distributivity of single-pattern replacement over append. -/
theorem replAll_append (p : Char) (r x y : List Char) :
    replAll p r (x ++ y) = replAll p r x ++ replAll p r y := by
  induction x with
  | nil => rfl
  | cons c t ih => simp [replAll, ih]

/-- Unfolding lemma for `replAll` on a cons cell. -/
theorem replAll_cons (p : Char) (r : List Char) (c : Char) (t : List Char) :
    replAll p r (c :: t) = (if c = p then r else [c]) ++ replAll p r t := rfl

/-- A single non-pattern character is left alone by `replAll`. -/
theorem replAll_single_ne {c p : Char} (r : List Char) (h : ¬ c = p) :
    replAll p r [c] = [c] := by
  simp [replAll, h]

/-- The chained `replaceAll` calls of `esc` act independently on each
character of the input. -/
theorem esc_cons (c : Char) (t : List Char) :
    esc (some (c :: t)) = escChar c ++ esc (some t) := by
  have hs : ∀ (p : Char) (r b X : List Char),
      replAll p r b = b → replAll p r (b ++ X) = b ++ replAll p r X := by
    intro p r b X hb
    rw [replAll_append, hb]
  simp only [esc, Option.getD]
  by_cases h1 : c = '&'
  · subst h1
    rw [replAll_cons, if_pos rfl, hs '<' entLt entAmp _ (by decide),
        hs '>' entGt entAmp _ (by decide), hs qtC entQt entAmp _ (by decide),
        hs apC entAp entAmp _ (by decide)]
    rfl
  by_cases h2 : c = '<'
  · subst h2
    rw [replAll_cons, if_neg h1, replAll_append,
        show replAll '<' entLt ['<'] = entLt from by decide,
        hs '>' entGt entLt _ (by decide), hs qtC entQt entLt _ (by decide),
        hs apC entAp entLt _ (by decide)]
    rfl
  by_cases h3 : c = '>'
  · subst h3
    rw [replAll_cons, if_neg h1, hs '<' entLt ['>'] _ (replAll_single_ne entLt h2),
        replAll_append, show replAll '>' entGt ['>'] = entGt from by decide,
        hs qtC entQt entGt _ (by decide), hs apC entAp entGt _ (by decide)]
    rfl
  by_cases h4 : c = qtC
  · subst h4
    rw [replAll_cons, if_neg h1, hs '<' entLt [qtC] _ (replAll_single_ne entLt h2),
        hs '>' entGt [qtC] _ (replAll_single_ne entGt h3),
        replAll_append, show replAll qtC entQt [qtC] = entQt from by decide,
        hs apC entAp entQt _ (by decide)]
    rfl
  by_cases h5 : c = apC
  · subst h5
    rw [replAll_cons, if_neg h1, hs '<' entLt [apC] _ (replAll_single_ne entLt h2),
        hs '>' entGt [apC] _ (replAll_single_ne entGt h3),
        hs qtC entQt [apC] _ (replAll_single_ne entQt h4),
        replAll_append, show replAll apC entAp [apC] = entAp from by decide]
    simp [escChar, h1, h2, h3, h4]
  · rw [replAll_cons, if_neg h1, hs '<' entLt [c] _ (replAll_single_ne entLt h2),
        hs '>' entGt [c] _ (replAll_single_ne entGt h3),
        hs qtC entQt [c] _ (replAll_single_ne entQt h4),
        hs apC entAp [c] _ (replAll_single_ne entAp h5)]
    simp [escChar, h1, h2, h3, h4, h5]

/-- The escaper equals the per-character map. -/
theorem esc_eq_escAll (t : List Char) : esc (some t) = escAll t := by
  induction t with
  | nil => rfl
  | cons c t ih => rw [esc_cons, escAll, ih]

/-- No character emitted by `escChar` is a raw `<`, `>`, quote or
apostrophe. -/
theorem escChar_safe (c c' : Char) (h : c' ∈ escChar c) :
    ¬ (c' = '<' ∨ c' = '>' ∨ c' = qtC ∨ c' = apC) := by
  unfold escChar at h
  split_ifs at h with h1 h2 h3 h4 h5
  · rw [show entAmp = ['&', 'a', 'm', 'p', ';'] from by decide] at h
    simp only [List.mem_cons, List.not_mem_nil, or_false] at h
    rcases h with rfl | rfl | rfl | rfl | rfl <;> decide
  · rw [show entLt = ['&', 'l', 't', ';'] from by decide] at h
    simp only [List.mem_cons, List.not_mem_nil, or_false] at h
    rcases h with rfl | rfl | rfl | rfl <;> decide
  · rw [show entGt = ['&', 'g', 't', ';'] from by decide] at h
    simp only [List.mem_cons, List.not_mem_nil, or_false] at h
    rcases h with rfl | rfl | rfl | rfl <;> decide
  · rw [show entQt = ['&', 'q', 'u', 'o', 't', ';'] from by decide] at h
    simp only [List.mem_cons, List.not_mem_nil, or_false] at h
    rcases h with rfl | rfl | rfl | rfl | rfl | rfl <;> decide
  · rw [show entAp = ['&', '#', '0', '3', '9', ';'] from by decide] at h
    simp only [List.mem_cons, List.not_mem_nil, or_false] at h
    rcases h with rfl | rfl | rfl | rfl | rfl | rfl <;> decide
  · simp only [List.mem_singleton] at h
    subst h
    simp [h2, h3, h4, h5]

/-- No character of the escaped output is a raw `<`, `>`, quote or
apostrophe. -/
theorem escAll_safe (t : List Char) (c' : Char) (h : c' ∈ escAll t) :
    ¬ (c' = '<' ∨ c' = '>' ∨ c' = qtC ∨ c' = apC) := by
  induction t with
  | nil => simp [escAll] at h
  | cons c t ih =>
    rw [escAll] at h
    rcases List.mem_append.mp h with h | h
    · exact escChar_safe c c' h
    · exact ih h

/-- A list starts with its own prefix. -/
theorem strStartsWith_append (x y : List Char) : strStartsWith (x ++ y) x = true := by
  induction x with
  | nil => cases y <;> rfl
  | cons c t ih => simp [strStartsWith, ih]

/-- Prepending one escaped character block preserves the entity-start
property. -/
theorem ampOkB_block (c : Char) (l : List Char) (h : ampOkB l = true) :
    ampOkB (escChar c ++ l) = true := by
  by_cases h1 : c = '&'
  · subst h1
    rw [show escChar '&' ++ l = '&' :: 'a' :: 'm' :: 'p' :: ';' :: l from by
      rw [show escChar '&' = ['&', 'a', 'm', 'p', ';'] from by decide]; rfl]
    have hany : (entities.any
        fun e => strStartsWith ('&' :: 'a' :: 'm' :: 'p' :: ';' :: l) e) = true := by
      refine List.any_eq_true.mpr ⟨entAmp, by simp [entities], ?_⟩
      have hp := strStartsWith_append entAmp l
      rw [show entAmp = ['&', 'a', 'm', 'p', ';'] from by decide] at hp ⊢
      simpa using hp
    simp [ampOkB, hany, h]
  by_cases h2 : c = '<'
  · subst h2
    rw [show escChar '<' ++ l = '&' :: 'l' :: 't' :: ';' :: l from by
      rw [show escChar '<' = ['&', 'l', 't', ';'] from by decide]; rfl]
    have hany : (entities.any
        fun e => strStartsWith ('&' :: 'l' :: 't' :: ';' :: l) e) = true := by
      refine List.any_eq_true.mpr ⟨entLt, by simp [entities], ?_⟩
      have hp := strStartsWith_append entLt l
      rw [show entLt = ['&', 'l', 't', ';'] from by decide] at hp ⊢
      simpa using hp
    simp [ampOkB, hany, h]
  by_cases h3 : c = '>'
  · subst h3
    rw [show escChar '>' ++ l = '&' :: 'g' :: 't' :: ';' :: l from by
      rw [show escChar '>' = ['&', 'g', 't', ';'] from by decide]; rfl]
    have hany : (entities.any
        fun e => strStartsWith ('&' :: 'g' :: 't' :: ';' :: l) e) = true := by
      refine List.any_eq_true.mpr ⟨entGt, by simp [entities], ?_⟩
      have hp := strStartsWith_append entGt l
      rw [show entGt = ['&', 'g', 't', ';'] from by decide] at hp ⊢
      simpa using hp
    simp [ampOkB, hany, h]
  by_cases h4 : c = qtC
  · subst h4
    rw [show escChar qtC ++ l = '&' :: 'q' :: 'u' :: 'o' :: 't' :: ';' :: l from by
      rw [show escChar qtC = ['&', 'q', 'u', 'o', 't', ';'] from by decide]; rfl]
    have hany : (entities.any
        fun e => strStartsWith ('&' :: 'q' :: 'u' :: 'o' :: 't' :: ';' :: l) e) = true := by
      refine List.any_eq_true.mpr ⟨entQt, by simp [entities], ?_⟩
      have hp := strStartsWith_append entQt l
      rw [show entQt = ['&', 'q', 'u', 'o', 't', ';'] from by decide] at hp ⊢
      simpa using hp
    simp [ampOkB, hany, h]
  by_cases h5 : c = apC
  · subst h5
    rw [show escChar apC ++ l = '&' :: '#' :: '0' :: '3' :: '9' :: ';' :: l from by
      rw [show escChar apC = ['&', '#', '0', '3', '9', ';'] from by decide]; rfl]
    have hany : (entities.any
        fun e => strStartsWith ('&' :: '#' :: '0' :: '3' :: '9' :: ';' :: l) e) = true := by
      refine List.any_eq_true.mpr ⟨entAp, by simp [entities], ?_⟩
      have hp := strStartsWith_append entAp l
      rw [show entAp = ['&', '#', '0', '3', '9', ';'] from by decide] at hp ⊢
      simpa using hp
    simp [ampOkB, hany, h]
  · rw [show escChar c = [c] from by simp [escChar, h1, h2, h3, h4, h5]]
    simpa [ampOkB, h1] using h

/-- Every `&` in the escaped output starts one of the five entities. -/
theorem ampOkB_escAll (t : List Char) : ampOkB (escAll t) = true := by
  induction t with
  | nil => rfl
  | cons c t ih =>
    rw [escAll]
    exact ampOkB_block c _ ih

/-! ### Claim theorems -/

/-- Claim C1: whenever the primary comparison for the requested key is
exactly zero, the sort comparator returns the fixed tie-break chain
(score desc, published desc, id asc by locale comparison), and this value
does not depend on the requested direction — the direction multiplier
touches only the primary comparison. -/
theorem sort_tiebreak_fixed (lc : List Char → List Char → Int)
    (pd : List Char → Option Int) (key : SortKey) (a b : Opp)
    (h : compareBy lc pd key a b = 0) (dir dir' : Dir) :
    sortCmp lc pd key dir a b = tieCmp lc pd a b ∧
    sortCmp lc pd key dir a b = sortCmp lc pd key dir' a b := by
  constructor <;> simp [sortCmp, h]

/-- Witness for `sort_tiebreak_fixed`: two rows with equal titles but
different scores, compared under both directions. -/
theorem sort_tiebreak_fixed_witness :
    compareBy lcW pdW SortKey.title oW1 oW2 = 0 ∧
    (sortCmp lcW pdW SortKey.title Dir.asc oW1 oW2 = tieCmp lcW pdW oW1 oW2 ∧
     sortCmp lcW pdW SortKey.title Dir.asc oW1 oW2 =
       sortCmp lcW pdW SortKey.title Dir.desc oW1 oW2) :=
  ⟨by decide, sort_tiebreak_fixed lcW pdW SortKey.title oW1 oW2 (by decide) Dir.asc Dir.desc⟩

/-- Claim C2 counterexample: for the row with id "ab", title "cd", empty
buyer, and the query "bc", the code excludes the row even though the
case-folded plain concatenation `id ++ title ++ buyer` does contain the
case-folded query as a substring — because the code joins the fields with
spaces, not by plain concatenation. -/
theorem search_concat_counterexample :
    searchFilter (some ("bc".toList)) [oAB] = [] ∧
    strIncludes (toLowerL (oAB.id ++ oAB.title ++ oAB.buyer))
      (toLowerL (trimL ("bc".toList))) = true := by
  constructor <;> decide

/-- Claim C2 (amended): for every non-empty (trimmed) query, the filtered
result holds exactly those rows whose case-folded space-separated
concatenation of id, title and buyer contains the case-folded query as a
substring. -/
theorem search_filter_characterization (raw : Option (List Char)) (data : List Opp)
    (o : Opp) (h : trimL (raw.getD []) ≠ []) :
    o ∈ searchFilter raw data ↔
      o ∈ data ∧
        strIncludes (toLowerL (searchBlob o)) (toLowerL (trimL (raw.getD []))) = true := by
  have hq : ¬ toLowerL (trimL (raw.getD [])) = [] := fun hq0 => h (toLowerL_eq_nil hq0)
  simp [searchFilter, hq, List.mem_filter]

/-- Witness for `search_filter_characterization` at query "ab" over the
one-row dataset. -/
theorem search_filter_characterization_witness :
    trimL ((some ("ab".toList)).getD []) ≠ [] ∧
    (oAB ∈ searchFilter (some ("ab".toList)) [oAB] ↔
      oAB ∈ [oAB] ∧
        strIncludes (toLowerL (searchBlob oAB))
          (toLowerL (trimL ((some ("ab".toList)).getD []))) = true) :=
  ⟨by decide, search_filter_characterization (some ("ab".toList)) [oAB] oAB (by decide)⟩

/-- Claim C3: filtering with a query that trims to the empty string
returns the dataset itself (the JS code returns a fresh spread copy,
which value-wise equals the input; the input array is left untouched). -/
theorem search_empty_query_identity (raw : Option (List Char)) (data : List Opp)
    (h : trimL (raw.getD []) = []) : searchFilter raw data = data := by
  simp [searchFilter, h, toLowerL]

/-- Witness for `search_empty_query_identity` at a whitespace-only query. -/
theorem search_empty_query_identity_witness :
    trimL ((some ("  ".toList)).getD []) = [] ∧
    searchFilter (some ("  ".toList)) [oAB] = [oAB] :=
  ⟨by decide, search_empty_query_identity (some ("  ".toList)) [oAB] (by decide)⟩

/-- Claim C4 counterexample: with metadata supplying `total_current = 5`
but no per-category totals, over an empty dataset, the reported current
total is 5 while the sum of the two per-category totals is 0; so not
every grand total equals the sum of its per-category values. -/
theorem counts_total_current_counterexample :
    (computeCounts (some []) (some []) (some ⟨none, none, some 5⟩)).total_current ≠
      (computeCounts (some []) (some []) (some ⟨none, none, some 5⟩)).totals.lic +
        (computeCounts (some []) (some []) (some ⟨none, none, some 5⟩)).totals.ca := by
  decide

/-- Claim C4 (amended): the per-category totals use externally supplied
metadata values when present and otherwise fall back to counting the full
dataset per category; the shown and reviewed grand totals are the sums of
their per-category values; the current total is the externally supplied
value when present and otherwise the sum of the two per-category
totals. -/
theorem computeCounts_spec (allRows viewRows : Option (List Opp))
    (mc : Option MetaCounts) :
    (computeCounts allRows viewRows mc).totals.lic =
      (Option.bind mc MetaCounts.licitaciones_total).getD
        (((allRows.getD []).countP (fun o => !(isCA o)) : Nat) : Int) ∧
    (computeCounts allRows viewRows mc).totals.ca =
      (Option.bind mc MetaCounts.compra_agil_total).getD
        (((allRows.getD []).countP (fun o => isCA o) : Nat) : Int) ∧
    (computeCounts allRows viewRows mc).shown_total =
      (computeCounts allRows viewRows mc).shown.lic +
        (computeCounts allRows viewRows mc).shown.ca ∧
    (computeCounts allRows viewRows mc).reviewed_total =
      (computeCounts allRows viewRows mc).reviewed.lic +
        (computeCounts allRows viewRows mc).reviewed.ca ∧
    (computeCounts allRows viewRows mc).total_current =
      (Option.bind mc MetaCounts.total_current).getD
        ((computeCounts allRows viewRows mc).totals.lic +
          (computeCounts allRows viewRows mc).totals.ca) := by
  refine ⟨?_, ?_, rfl, rfl, rfl⟩ <;> simp [computeCounts, List.countP_eq_length_filter]

/-- Dual of a direction, describing the toggle behavior. -/
def toggleDir : Dir → Dir
  | .asc => .desc
  | .desc => .asc

/-- Claim C5: a click on a header cell toggles the direction when the
clicked column is the current sort column, resets to descending on a new
column, and leaves the sort state unchanged on the keyless action column
(index 9). -/
theorem header_click_spec (st : SortSt) (idx : Nat) :
    clickHeader st idx =
      (match headerKeys.getD idx none with
       | none => st
       | some k => ⟨k, if st.key = k then toggleDir st.dir else Dir.desc⟩) ∧
    clickHeader st 9 = st := by
  constructor
  · cases hk : headerKeys.getD idx none with
    | none => simp only [clickHeader]; rw [hk]
    | some k =>
      simp only [clickHeader]
      rw [hk]
      by_cases hsame : st.key = k
      · cases hd : st.dir <;> simp [hsame, toggleDir]
      · simp [hsame]
  · rfl

/-- Claim C6: the currency formatter yields the placeholder dash for
null, undefined and NaN inputs; for a number it yields the host locale
formatter's output under options requesting zero fractional digits, and
falls back to the stringified value when the host formatter throws. -/
theorem fmtCLP_spec (intlFmt : NumFmtOpts → Int → Option (List Char)) (n : Int) :
    fmtCLP intlFmt CLPInput.null = dashL ∧
    fmtCLP intlFmt CLPInput.undef = dashL ∧
    fmtCLP intlFmt CLPInput.nan = dashL ∧
    fmtCLP intlFmt (CLPInput.num n) =
      (match intlFmt clpOpts n with
       | some s => s
       | none => (toString n).toList) ∧
    clpOpts.maximumFractionDigits = 0 :=
  ⟨rfl, rfl, rfl, rfl, rfl⟩

/-- Claim C7: the date-time formatter yields the placeholder dash for
absent or empty input, returns a non-empty unparsable input unchanged,
and otherwise hands the parsed timestamp to the host formatter configured
with the fixed target time zone and locale. -/
theorem fmtDT_spec (pd : List Char → Option Int)
    (fdt : DTFmtOpts → Int → List Char) (s : List Char) :
    fmtDT pd fdt none = dashL ∧
    fmtDT pd fdt (some []) = dashL ∧
    fmtDT pd fdt (some s) =
      (if s = [] then dashL
       else
         match pd s with
         | none => s
         | some t => fdt dtOpts t) ∧
    dtOpts.timeZone = "America/Santiago".toList ∧
    dtOpts.locale = "es-CL".toList :=
  ⟨rfl, rfl, rfl, rfl, rfl⟩

/-- Claim C8: the text escaper rewrites each character of the textual
input independently, mapping each of the five HTML-significant characters
to its entity; consequently the output carries no raw `<`, `>`, `"` or
`'` at all, and every `&` in the output is the start of one of the five
generated entities. -/
theorem esc_spec (s : Option (List Char)) :
    esc s = escAll (s.getD []) ∧
    (∀ c', c' ∈ esc s → ¬ (c' = '<' ∨ c' = '>' ∨ c' = qtC ∨ c' = apC)) ∧
    ampOkB (esc s) = true := by
  have he : esc s = escAll (s.getD []) := by
    cases s with
    | none => rfl
    | some t => exact esc_eq_escAll t
  refine ⟨he, ?_, ?_⟩
  · intro c' hc'
    rw [he] at hc'
    exact escAll_safe _ _ hc'
  · rw [he]
    exact ampOkB_escAll _

/-- Witness for `esc_spec`: the ampersand of the entity emitted for `<`
is itself none of the four forbidden raw characters. -/
theorem esc_spec_witness :
    ¬ ('&' = '<' ∨ '&' = '>' ∨ '&' = qtC ∨ '&' = apC) :=
  (esc_spec (some ("<a".toList))).2.1 '&' (by decide)

/-- Claim C9: neither searching nor sorting changes the loaded dataset:
both state transformers recompute only the view (and the sort request)
and leave the `DATA` field exactly as it was. -/
theorem view_ops_preserve_data (lc : List Char → List Char → Int)
    (pd : List Char → Option Int) (raw : Option (List Char)) (key : SortKey)
    (dir : Dir) (st : UIState) :
    (applySearch lc pd raw st).data = st.data ∧
    (applySort lc pd key dir st).data = st.data :=
  ⟨rfl, rfl⟩

/-- Claim C10: for a non-empty (trimmed) query the filtered result is a
sublist of the dataset — matching rows keep their relative input order. -/
theorem search_filter_sublist (raw : Option (List Char)) (data : List Opp)
    (h : trimL (raw.getD []) ≠ []) :
    List.Sublist (searchFilter raw data) data := by
  have hrw : searchFilter raw data =
      if toLowerL (trimL (raw.getD [])) = [] then data
      else data.filter
        (fun o => strIncludes (toLowerL (searchBlob o)) (toLowerL (trimL (raw.getD [])))) := rfl
  rw [hrw]
  split
  · exact List.Sublist.refl data
  · exact List.filter_sublist data

/-- Witness for `search_filter_sublist` at query "ab". -/
theorem search_filter_sublist_witness :
    trimL ((some ("ab".toList)).getD []) ≠ [] ∧
    List.Sublist (searchFilter (some ("ab".toList)) [oAB]) [oAB] :=
  ⟨by decide, search_filter_sublist (some ("ab".toList)) [oAB] (by decide)⟩

end Periscopio
